import Mathlib

/-!
Verification development for the pi_video_looper (VLC variant) playback engine.

The embedding below translates `Adafruit_Video_Looper/video_looper.py` into Lean.
The companion modules `model.py` (Movie, Playlist) and `playlist_builders.py`
are not among the sources; the definitions standing in for them are modelled
from the specification and say so in their doc comments.

Conventions of the embedding:
- the filesystem is an explicit value (`FS`) passed to every operation that the
  Python code performs through `os` calls;
- the external Player and the pygame event queue are represented by an effect
  trace (`Eff`): each call the controller issues to a collaborator appends one
  event to the trace (console printing and sleeping are not traced);
- machine randomness for the random traversal mode is an explicit `entropy`
  input; none of the theorems below depend on its value;
- fallible operations (a GPIO callback hitting a missing pin key raises in
  Python) return `Option`.
-/

namespace VideoLooperSpec

/-! ## Character and string helpers -/

/-- Lowercase every character; models the IGNORECASE regex flag and `str.lower`. -/
def lcList (cs : List Char) : List Char := cs.map Char.toLower

def isDigitCh (c : Char) : Bool := '0' ≤ c && c ≤ '9'

/-- Numeric value of a digit string (most significant first). -/
def digitsToNat (cs : List Char) : Nat :=
  cs.foldl (fun a c => a * 10 + (c.toNat - '0'.toNat)) 0

/-! ### The repeat-count pattern

`video_looper.py` line 250 runs the regex `_repeat_([0-9]*)x` with IGNORECASE
over the filename via `re.search` (leftmost match wins).  `matchRepeatAt` tries
to match the pattern anchored at the head of the list; `findRepeatGroup` scans
for the leftmost position at which it matches, returning the digit group. -/

def matchRepeatAt (cs : List Char) : Option (List Char) :=
  if lcList (cs.take 8) = "_repeat_".toList then
    let rest := cs.drop 8
    let ds := rest.takeWhile isDigitCh
    match rest.drop ds.length with
    | c :: _ => if c = 'x' ∨ c = 'X' then some ds else none
    | [] => none
  else none

def findRepeatGroup : List Char → Option (List Char)
  | [] => none
  | c :: rest =>
    match matchRepeatAt (c :: rest) with
    | some g => some g
    | none => findRepeatGroup rest

/-! ### Path manipulation (`os.path` on posix) -/

/-- Basename: the suffix after the last slash. -/
def baseAfterSlash (cs : List Char) : List Char :=
  (cs.reverse.takeWhile (fun c => c ≠ '/')).reverse

/-- Extension of a basename per `posixpath.splitext`: the suffix from the last
dot, provided some character of the basename strictly before that dot is not a
dot (a run of leading dots carries no extension). -/
def extOfBase (base : List Char) : List Char :=
  let lead := (base.takeWhile (fun c => c = '.')).length
  if (base.drop lead).contains '.' then
    '.' :: (base.reverse.takeWhile (fun c => c ≠ '.')).reverse
  else []

/-- Models `os.path.splitext(p)[1]`. -/
def splitextExt (p : String) : String :=
  String.mk (extOfBase (baseAfterSlash p.toList))

/-- Models `os.path.splitext(p)[0]`: the path with its extension removed. -/
def splitextBase (p : String) : String :=
  String.mk (p.toList.take (p.toList.length - (extOfBase (baseAfterSlash p.toList)).length))

def startsWithSlash (p : String) : Bool :=
  match p.toList with
  | '/' :: _ => true
  | _ => false

def endsWithSlash (p : String) : Bool :=
  match p.toList.getLast? with
  | some c => c = '/'
  | none => false

/-- Models `os.path.isabs` on posix. -/
def isAbsPath (p : String) : Bool := startsWithSlash p

/-- Models `os.path.join` on posix for two components. -/
def joinPath (a b : String) : String :=
  if startsWithSlash b then b
  else if a = "" ∨ endsWithSlash a then a ++ b
  else a ++ "/" ++ b

/-- Models `str.rstrip('/')`. -/
def rstripSlash (p : String) : String :=
  String.mk (p.toList.reverse.dropWhile (fun c => c = '/')).reverse

/-! ### Numeric strings

`VideoLooper._is_number` calls Python `float(s)` and reports whether it raised.
The model below accepts the finite decimal literals `[ws] [sign] digits
[. digits] [(e|E) [sign] digits] [ws]` (at least one digit before the optional
exponent).  Forms Python additionally accepts on which the surrounding code
then misbehaves or that no theorem below exercises (`inf`/`nan`, on which
`int(float(s))` raises, and underscore-grouped digits) are outside the modelled
numeric set.  `intOfFloatStr` models `int(float(s))` by exact rational
truncation toward zero, which agrees with the double-precision original for
the magnitudes in scope. -/

def isWsCh (c : Char) : Bool :=
  c = ' ' ∨ c = '\t' ∨ c = '\n' ∨ c = '\r' ∨ c.toNat = 11 ∨ c.toNat = 12

def stripWs (cs : List Char) : List Char :=
  ((cs.dropWhile isWsCh).reverse.dropWhile isWsCh).reverse

structure FloatLit where
  neg : Bool
  ip : List Char
  fp : List Char
  ex : Int
deriving DecidableEq

def parseSign (cs : List Char) : Bool × List Char :=
  match cs with
  | '-' :: r => (true, r)
  | '+' :: r => (false, r)
  | r => (false, r)

def parseExpPart (cs : List Char) : Option Int :=
  match cs with
  | [] => some 0
  | c :: r =>
    if c = 'e' ∨ c = 'E' then
      let sp := parseSign r
      let ds := sp.2.takeWhile isDigitCh
      if ds ≠ [] ∧ sp.2.drop ds.length = [] then
        some (if sp.1 then -(digitsToNat ds : Int) else (digitsToNat ds : Int))
      else none
    else none

def parseFloatLit (s : String) : Option FloatLit :=
  let cs := stripWs s.toList
  let sp := parseSign cs
  let d1 := sp.2.takeWhile isDigitCh
  let r2 := sp.2.drop d1.length
  let fr :=
    match r2 with
    | '.' :: r => (r.takeWhile isDigitCh, r.drop (r.takeWhile isDigitCh).length)
    | _ => (([] : List Char), r2)
  if d1 = [] ∧ fr.1 = [] then none
  else
    match parseExpPart fr.2 with
    | some e => some ⟨sp.1, d1, fr.1, e⟩
    | none => none

/-- Models `VideoLooper._is_number` (lines 189-194). -/
def pyIsNumber (s : String) : Bool := (parseFloatLit s).isSome

/-- Models `int(float(s))` by exact truncation toward zero. -/
def intOfFloatStr (s : String) : Int :=
  match parseFloatLit s with
  | none => 0
  | some f =>
    let k := f.fp.length
    let m := digitsToNat f.ip * 10 ^ k + digitsToNat f.fp
    let q : Nat :=
      if 0 ≤ f.ex then m * 10 ^ f.ex.toNat / 10 ^ k
      else m / 10 ^ (k + (-f.ex).toNat)
    if f.neg then -(q : Int) else (q : Int)

/-! ## Data model: Movie and Playlist -/

structure Movie where
  path : String
  title : String
  repeats : Nat
deriving DecidableEq

/-- Argument passed for the repeat count: `video_looper.py` line 256 passes
either the raw digit group matched in the filename (a string) or the integer
default 1. -/
inductive RepeatArg where
  | strArg (s : String)
  | natArg (n : Nat)
deriving DecidableEq

/-- Modelled from the spec: the Movie constructor lives in `model.py`, which is
not among the sources.  Per the spec, a Movie's attributes are its path, a
display title and a repeat count that is a positive integer with default 1,
and a repeat count of less than 1 is treated as 1. -/
def Movie.make (path title : String) (r : RepeatArg) : Movie :=
  { path := path, title := title,
    repeats :=
      match r with
      | .strArg s => max 1 (digitsToNat s.toList)
      | .natArg n => max 1 n }

structure Playlist where
  movies : List Movie
  cursor : Int
  pending : Option Nat
deriving DecidableEq

/-- Strict lexicographic order on code points; models Python string
comparison. -/
def lexLt : List Char → List Char → Bool
  | [], [] => false
  | [], _ :: _ => true
  | _ :: _, [] => false
  | a :: as, b :: bs =>
    if a.toNat < b.toNat then true
    else if b.toNat < a.toNat then false
    else lexLt as bs

def strLt (a b : String) : Bool := lexLt a.toList b.toList

def insertByPath (m : Movie) : List Movie → List Movie
  | [] => [m]
  | a :: r => if strLt m.path a.path then m :: a :: r else a :: insertByPath m r

/-- Insertion sort by path; models `sorted(movies)` with the spec's ordering
of movies by path. -/
def sortByPath : List Movie → List Movie
  | [] => []
  | a :: r => insertByPath a (sortByPath r)

/-- Modelled from the spec: Playlist construction sorts the movies by path and
leaves the cursor unset (-1) with no pending override. -/
def Playlist.build (ms : List Movie) : Playlist :=
  { movies := sortByPath ms, cursor := -1, pending := none }

def Playlist.length (pl : Playlist) : Nat := pl.movies.length

/-- Modelled from the spec: the index picked in random mode — with one item the
sole index, otherwise an index different from the current cursor, the draw
itself being external entropy. -/
def randIndex (len : Nat) (cursor : Int) (draw : Nat) : Nat :=
  if len ≤ 1 then 0
  else if cursor < 0 ∨ len ≤ cursor.toNat then draw % len
  else
    let k := draw % (len - 1)
    if k < cursor.toNat then k else k + 1

/-- Index the next traversal step would use: a pending override wins; otherwise
sequential mode advances the cursor circularly `(cursor+1) mod length` (the
unset cursor -1 advancing to 0) and random mode picks via `randIndex`. -/
def Playlist.nextIdx (pl : Playlist) (random : Bool) (draw : Nat) : Nat :=
  match pl.pending with
  | some i => i
  | none =>
    if random then randIndex pl.movies.length pl.cursor draw
    else ((pl.cursor + 1) % (pl.movies.length : Int)).toNat

/-- Modelled from the spec: `Playlist.next_movie` lives in `model.py`, which is
not among the sources.  Per the spec it returns nothing iff the playlist is
empty; a pending override index set by `set_next` is consumed by the following
call; otherwise the cursor advances per `nextIdx`.  The updated playlist is
returned alongside the movie. -/
def Playlist.next_movie (pl : Playlist) (random : Bool) (draw : Nat) :
    Option (Movie × Playlist) :=
  if pl.movies.length = 0 then none
  else
    match pl.movies.get? (pl.nextIdx random draw) with
    | some m => some (m, { pl with cursor := ((pl.nextIdx random draw : Nat) : Int), pending := none })
    | none => none

/-- Index of the symmetric circular decrement. -/
def Playlist.prevIdx (pl : Playlist) (random : Bool) (draw : Nat) : Nat :=
  if random then randIndex pl.movies.length pl.cursor draw
  else ((pl.cursor - 1) % (pl.movies.length : Int)).toNat

/-- Modelled from the spec: symmetric circular decrement of `next_movie`. -/
def Playlist.previous_movie (pl : Playlist) (random : Bool) (draw : Nat) :
    Option (Movie × Playlist) :=
  if pl.movies.length = 0 then none
  else
    match pl.movies.get? (pl.prevIdx random draw) with
    | some m => some (m, { pl with cursor := ((pl.prevIdx random draw : Nat) : Int) })
    | none => none

/-- Value of one entry of the configured GPIO pin map: the JSON table maps pin
names to either an action-name string or an integer playlist index. -/
inductive PinAction where
  | str (s : String)
  | num (i : Int)
deriving DecidableEq

/-- Modelled from the spec: `set_next` rejects an out-of-range index silently,
keeping the old state, and marks an in-range index for pickup by the following
`next` call.  A non-index argument cannot be an in-range index and is likewise
rejected. -/
def Playlist.set_next (pl : Playlist) (a : PinAction) : Playlist :=
  match a with
  | .num i =>
    if 0 ≤ i ∧ i < (pl.movies.length : Int) then { pl with pending := some i.toNat }
    else pl
  | .str _ => pl

def movieKey (m : Movie) : String × Nat := (m.path, m.repeats)

/-- Multiset equality of two key lists, by counting. -/
def multisetEqKeys (l1 l2 : List (String × Nat)) : Bool :=
  (l1.length == l2.length) && l1.all (fun a => l1.count a == l2.count a)

/-- Modelled from the spec: Playlist equality compares the multiset of
(path, repeat count) pairs, ignoring cursor, pending override and order. -/
def plEq (p q : Playlist) : Bool :=
  multisetEqKeys (p.movies.map movieKey) (q.movies.map movieKey)

/-! ## Filesystem, configuration and volume state -/

/-- Snapshot of the filesystem the controller observes: regular files, existing
directories with their listings, the first line `readline()` yields for each
readable file, and the parse result of each m3u playlist file. -/
structure FS where
  files : List String
  dirs : List (String × List String)
  lines : List (String × String)
  m3u : List (String × List Movie)
deriving DecidableEq

def FS.isFile (fs : FS) (p : String) : Bool := fs.files.contains p

def FS.isDir (fs : FS) (p : String) : Bool := (fs.dirs.lookup p).isSome

def FS.pathExists (fs : FS) (p : String) : Bool := fs.isFile p || fs.isDir p

def FS.listdir (fs : FS) (p : String) : List String := (fs.dirs.lookup p).getD []

def FS.firstLine (fs : FS) (p : String) : String := (fs.lines.lookup p).getD ""

/-- The configuration values `_build_playlist` and its callees read, together
with the FileReader's search paths and the active player's supported
extensions. -/
structure Cfg where
  playlistPath : Option String
  readerPaths : List String
  extensions : List String
  alsaHwVolFile : String
  soundVolFile : String
deriving DecidableEq

/-- The two volume fields `_build_playlist_from_all_files` mutates:
`_alsa_hw_vol` (initially `None`) and `_sound_vol` (initially 0). -/
structure VolState where
  alsaHwVol : Option String
  soundVol : Int
deriving DecidableEq

/-! ## Playlist builder (`_build_playlist`, lines 196-275) -/

/-- Models the filter regex of line 249: the filename ends, case-insensitively,
in a dot followed by one of the player's supported extensions. -/
def extMatches (exts : List String) (x : String) : Bool :=
  exts.any (fun e => ('.' :: lcList e.toList).isSuffixOf (lcList x.toList))

/-- Models the hidden-file test `x[0] != '.'` of line 249 (a nameless entry
never arises from a directory listing and is treated as skipped). -/
def hiddenEntry (x : String) : Bool :=
  match x.toList with
  | [] => true
  | c :: _ => c = '.'

/-- The repeat argument passed to the Movie constructor (lines 250-254): the
matched digit group when the pattern occurs, the integer 1 otherwise. -/
def repeatArgOf (x : String) : RepeatArg :=
  match findRepeatGroup x.toList with
  | some g => .strArg (String.mk g)
  | none => .natArg 1

/-- The Movie built for directory entry `x` found under search path `p`
(lines 255-256). -/
def scanMovie (p x : String) : Movie :=
  Movie.make (rstripSlash p ++ "/" ++ x) (splitextBase x) (repeatArgOf x)

/-- Movies collected from one directory listing, in listing order. -/
def scanDirMovies (exts : List String) (p : String) (entries : List String) :
    List Movie :=
  (entries.filter (fun x => !hiddenEntry x && extMatches exts x)).map (scanMovie p)

/-- Value the hardware-volume sidecar read of lines 258-264 would store for
search path `p`: the first line of the file, whenever the file name is
configured and the path exists — with no validation at all. -/
def hwCand (cfg : Cfg) (fs : FS) (p : String) : Option String :=
  if cfg.alsaHwVolFile ≠ "" then
    let fp := rstripSlash p ++ "/" ++ cfg.alsaHwVolFile
    if fs.pathExists fp then some (fs.firstLine fp) else none
  else none

/-- Value the software-volume sidecar read of lines 266-273 would store for
search path `p`: `int(float(line))` of the first line, whenever the file name
is configured, the path exists and the line is numeric. -/
def soundCand (cfg : Cfg) (fs : FS) (p : String) : Option Int :=
  if cfg.soundVolFile ≠ "" then
    let fp := rstripSlash p ++ "/" ++ cfg.soundVolFile
    if fs.pathExists fp then
      let s := fs.firstLine fp
      if pyIsNumber s then some (intOfFloatStr s) else none
    else none
  else none

/-- One iteration of the search-path loop of lines 242-273: skip paths that do
not exist or are not directories; otherwise append the matching movies and
apply both sidecar volume reads in order. -/
def scanStep (cfg : Cfg) (fs : FS) (acc : List Movie × VolState) (p : String) :
    List Movie × VolState :=
  if !fs.pathExists p || !fs.isDir p then acc
  else
    (acc.1 ++ scanDirMovies cfg.extensions p (fs.listdir p),
     { alsaHwVol :=
         match hwCand cfg fs p with
         | some s => some s
         | none => acc.2.alsaHwVol,
       soundVol :=
         match soundCand cfg fs p with
         | some v => v
         | none => acc.2.soundVol })

/-- Models `VideoLooper._build_playlist_from_all_files` (lines 234-275),
returning the built Playlist together with the updated volume fields. -/
def buildPlaylistFromAllFiles (cfg : Cfg) (fs : FS) (vol : VolState) :
    Playlist × VolState :=
  let r := cfg.readerPaths.foldl (scanStep cfg fs) ([], vol)
  (Playlist.build r.1, r.2)

/-- Modelled from the spec: `build_playlist_m3u` lives in
`playlist_builders.py`, which is not among the sources; per the spec it parses
the playlist file preserving the declared order.  The parsed entries are
supplied by the filesystem model. -/
def m3uPlaylist (fs : FS) (p : String) : Playlist :=
  { movies := (fs.m3u.lookup p).getD [], cursor := -1, pending := none }

/-- The for/else resolution loop of lines 213-221: the first search path under
which the relative playlist path names a file wins. -/
def firstResolve (fs : FS) (paths : List String) (pp : String) : Option String :=
  paths.findSome? (fun q =>
    let mp := joinPath q pp
    if fs.isFile mp then some mp else none)

/-- Extension test of line 224: exactly `.m3u` or `.m3u8`, case-sensitively. -/
def m3uExtOk (p : String) : Bool := splitextExt p = ".m3u" || splitextExt p = ".m3u8"

/-- Models `VideoLooper._build_playlist` (lines 196-232). -/
def buildPlaylist (cfg : Cfg) (fs : FS) (vol : VolState) : Playlist × VolState :=
  match cfg.playlistPath with
  | none => buildPlaylistFromAllFiles cfg fs vol
  | some pp =>
    if pp = "" then buildPlaylistFromAllFiles cfg fs vol
    else if isAbsPath pp then
      if fs.isFile pp then
        if m3uExtOk pp then (m3uPlaylist fs pp, vol)
        else buildPlaylistFromAllFiles cfg fs vol
      else buildPlaylistFromAllFiles cfg fs vol
    else
      match cfg.readerPaths with
      | [] => (Playlist.build [], vol)
      | _ :: _ =>
        match firstResolve fs cfg.readerPaths pp with
        | some q =>
          if m3uExtOk q then (m3uPlaylist fs q, vol)
          else buildPlaylistFromAllFiles cfg fs vol
        | none => buildPlaylistFromAllFiles cfg fs vol

/-! ## The controller (`VideoLooper`) -/

/-- Calls the controller issues to its collaborators, in order.  `playNextInvoked`
and `playPrevInvoked` mark an invocation of `_play_next` / `_play_previous`;
`queryNext` / `queryPrevious` mark the controller asking the Playlist for a
movie; the remaining events are Player calls, the pygame event posted by the
GPIO handler, and the shutdown calls.  Console printing and sleeping are not
traced. -/
inductive Eff where
  | playNextInvoked
  | playPrevInvoked
  | queryNext
  | queryPrevious
  | playerPlay (path : String) (vol : Int)
  | playerStop (fade : Nat)
  | togglePause
  | toggleMute
  | volumeUp
  | volumeDown
  | setNextCall (a : PinAction)
  | postKey (name : String)
  | gpioCleanup
  | pygameQuit
deriving DecidableEq

/-- The mutable attributes of `VideoLooper` the embedded operations touch,
together with the fixed configuration.  `entropy` stands for the external
randomness a random-mode traversal would consume. -/
structure CtrlState where
  running : Bool
  playbackStopped : Bool
  isRandom : Bool
  entropy : Nat
  playlist : Playlist
  vol : VolState
  cfg : Cfg
  pinMap : Option (List (String × PinAction))
  gpioDisabledWhilePlayback : Bool
deriving DecidableEq

/-- Models `VideoLooper._play_next` (lines 380-388). -/
def playNextC (st : CtrlState) : CtrlState × List Eff :=
  if st.playlist.length = 0 then (st, [Eff.playNextInvoked])
  else
    match st.playlist.next_movie st.isRandom st.entropy with
    | some mp =>
      ({ st with playlist := mp.2 },
       [Eff.playNextInvoked, Eff.queryNext, Eff.playerPlay mp.1.path st.vol.soundVol])
    | none => (st, [Eff.playNextInvoked, Eff.queryNext])

/-- Models `VideoLooper._play_previous` (lines 390-398). -/
def playPrevC (st : CtrlState) : CtrlState × List Eff :=
  if st.playlist.length = 0 then (st, [Eff.playPrevInvoked])
  else
    match st.playlist.previous_movie st.isRandom st.entropy with
    | some mp =>
      ({ st with playlist := mp.2 },
       [Eff.playPrevInvoked, Eff.queryPrevious, Eff.playerPlay mp.1.path st.vol.soundVol])
    | none => (st, [Eff.playPrevInvoked, Eff.queryPrevious])

/-- Keys the keyboard handler of lines 332-374 distinguishes. -/
inductive Key where
  | escape
  | space
  | right
  | left
  | r
  | s
  | minus
  | plus
  | kpPlus
  | m
  | up
  | down
  | other
deriving DecidableEq

/-- Models one KEYDOWN event dispatch of `_handle_keyboard_shortcuts`
(lines 338-372).  The filesystem is consulted only by the reload branch. -/
def handleKeyEvent (st : CtrlState) (fs : FS) (k : Key) : CtrlState × List Eff :=
  match k with
  | .escape => ({ st with running := false }, [])
  | .space => (st, [Eff.togglePause])
  | .right => playNextC st
  | .left => playPrevC st
  | .r =>
    let pr := buildPlaylist st.cfg fs st.vol
    playNextC { st with playlist := pr.1, vol := pr.2 }
  | .s => (st, [Eff.playerStop 0])
  | .minus => (st, [Eff.volumeDown])
  | .plus => (st, [Eff.volumeUp])
  | .kpPlus => (st, [Eff.volumeUp])
  | .m => (st, [Eff.toggleMute])
  | .up => playNextC st
  | .down => playPrevC st
  | .other => (st, [])

/-- Models `VideoLooper._handle_exit_signal` (lines 376-378). -/
def handleExitSignal (st : CtrlState) : CtrlState := { st with running := false }

/-- The action names of line 412 that the GPIO handler re-injects as keyboard
events. -/
def keyboardEquivActions : List String :=
  ["K_ESCAPE", "K_k", "K_s", "K_SPACE", "K_p", "K_b", "K_o", "K_i"]

def isKeyboardEquiv (a : PinAction) : Bool :=
  match a with
  | .str s => keyboardEquivActions.contains s
  | .num _ => false

/-- Models `VideoLooper._handle_gpio_control` (lines 400-417).  The player's
`is_playing()` answer is an input.  A pin missing from the map raises a
`KeyError` in Python, modelled as `none`. -/
def handleGpio (st : CtrlState) (pin : String) (playerIsPlaying : Bool) :
    Option (CtrlState × List Eff) :=
  match st.pinMap with
  | none => some (st, [])
  | some pmap =>
    if st.gpioDisabledWhilePlayback && playerIsPlaying then some (st, [])
    else
      match pmap.lookup pin with
      | none => none
      | some act =>
        if isKeyboardEquiv act then
          match act with
          | .str s => some (st, [Eff.postKey s])
          | .num _ => some (st, [])
        else
          some ({ st with playlist := st.playlist.set_next act, playbackStopped := false },
                [Eff.setNextCall act, Eff.playerStop 3])

/-- External inputs one main-loop iteration consumes: the player's `finished()`
answer and the filesystem snapshot the rebuild observes. -/
structure StepInput where
  finished : Bool
  fs : FS
deriving DecidableEq

/-- Models one iteration of the main loop body of `VideoLooper.run`
(lines 442-456). -/
def loopBody (st : CtrlState) (inp : StepInput) : CtrlState × List Eff :=
  if st.playbackStopped then (st, [])
  else
    let a := if inp.finished then playNextC st else (st, [])
    let pr := buildPlaylist a.1.cfg inp.fs a.1.vol
    let st2 := { a.1 with vol := pr.2 }
    if plEq pr.1 st2.playlist then (st2, a.2)
    else
      let b := playNextC { st2 with playlist := pr.1 }
      (b.1, a.2 ++ b.2)

/-- Models the `while self._running` loop of line 442, observed for `fuel`
iterations with the listed per-iteration inputs. -/
def runLoop : Nat → CtrlState → List StepInput → CtrlState × List Eff
  | 0, st, _ => (st, [])
  | _ + 1, st, [] => (st, [])
  | n + 1, st, i :: ins =>
    if st.running then
      let a := loopBody st i
      let b := runLoop n a.1 ins
      (b.1, a.2 ++ b.2)
    else (st, [])

/-- Models the cleanup of lines 458-463 run after the main loop exits: stop the
player, release GPIO when a pin map was configured, quit pygame. -/
def runExitEffs (st : CtrlState) : List Eff :=
  Eff.playerStop 0 :: (if st.pinMap.isSome then [Eff.gpioCleanup] else []) ++ [Eff.pygameQuit]

/-- Models `VideoLooper.run` from its main loop onward: the loop followed by
the exit path. -/
def runFrom (fuel : Nat) (st : CtrlState) (ins : List StepInput) :
    CtrlState × List Eff :=
  let r := runLoop fuel st ins
  (r.1, r.2 ++ runExitEffs r.1)

/-! ## Claim-side specification functions

These definitions follow the wording of the claims (not the source) and are
compared with the embedded code in the claim theorems. -/

/-- Stated from the claim's words (C3): resolution of a configured playlist
path — an absolute path resolves directly when it names a file; a relative
path is searched against each FileReader search path in order, the first hit
winning. -/
def specResolvePlaylistPath (cfg : Cfg) (fs : FS) (pp : String) : Option String :=
  if isAbsPath pp then (if fs.isFile pp then some pp else none)
  else firstResolve fs cfg.readerPaths pp

/-- Stated from the claim's words (C9): the repeat count demanded — the value
of the first case-insensitive repeat marker in the filename when one is
present, 1 otherwise, any value below 1 raised to 1. -/
def specRepeatCount (x : String) : Nat :=
  match findRepeatGroup x.toList with
  | some g => max 1 (digitsToNat g)
  | none => 1

/-- Last element of the list, or the default when the list is empty. -/
def lastWins {α : Type} : List α → α → α
  | [], d => d
  | a :: l, _ => lastWins l a

/-- Search paths the full scan actually visits (existing directories). -/
def scannedPaths (fs : FS) (ps : List String) : List String :=
  ps.filter (fun p => fs.pathExists p && fs.isDir p)

/-- Stated for the amended C8: the hardware volume after the scan — the last
sidecar value found across the visited search paths wins, unvalidated; the
prior value is kept when none is found. -/
def specHwVolAfterScan (cfg : Cfg) (fs : FS) (ps : List String)
    (v0 : Option String) : Option String :=
  lastWins (((scannedPaths fs ps).filterMap (hwCand cfg fs)).map some) v0

/-- Stated for the amended C8: the software volume after the scan — the last
numeric sidecar value found across the visited search paths wins; malformed
and missing values are skipped, the prior value kept when none is found. -/
def specSoundVolAfterScan (cfg : Cfg) (fs : FS) (ps : List String)
    (v0 : Int) : Int :=
  lastWins ((scannedPaths fs ps).filterMap (soundCand cfg fs)) v0

/-- Controller state after the finished-check of line 445-446 of one loop
iteration. -/
def afterFinished (st : CtrlState) (inp : StepInput) : CtrlState :=
  if inp.finished then (playNextC st).1 else st

/-- Playlist the rebuild of line 448 of one loop iteration produces. -/
def rebuiltPl (st : CtrlState) (inp : StepInput) : Playlist :=
  (buildPlaylist (afterFinished st inp).cfg inp.fs (afterFinished st inp).vol).1

/-! ## Sample states used by concrete theorems -/

def volZero : VolState := { alsaHwVol := none, soundVol := 0 }

def cfgScan : Cfg :=
  { playlistPath := none, readerPaths := ["/m"], extensions := ["mp4"],
    alsaHwVolFile := "", soundVolFile := "" }

def fsScan : FS :=
  { files := [], dirs := [("/m", ["a_repeat_3x.mp4", "b.mp4"])], lines := [], m3u := [] }

def stScan : CtrlState :=
  { running := true, playbackStopped := false, isRandom := false, entropy := 0,
    playlist := (buildPlaylistFromAllFiles cfgScan fsScan volZero).1,
    vol := volZero, cfg := cfgScan, pinMap := none,
    gpioDisabledWhilePlayback := false }

def stEmpty : CtrlState :=
  { running := true, playbackStopped := false, isRandom := false, entropy := 0,
    playlist := Playlist.build [], vol := volZero, cfg := cfgScan, pinMap := none,
    gpioDisabledWhilePlayback := false }

def stHalted : CtrlState :=
  { stScan with running := false, pinMap := some [("11", PinAction.num 0)] }

/-! ## Helper lemmas -/

theorem next_movie_movies {pl : Playlist} {random : Bool} {draw : Nat}
    {mp : Movie × Playlist} (h : pl.next_movie random draw = some mp) :
    mp.2.movies = pl.movies := by
  unfold Playlist.next_movie at h
  split at h
  · exact absurd h (by simp)
  · cases hg : pl.movies.get? (pl.nextIdx random draw) with
    | none => rw [hg] at h; exact absurd h (by simp)
    | some mv => rw [hg] at h; cases h; rfl

theorem playNextC_count (st : CtrlState) :
    ((playNextC st).2).count Eff.playNextInvoked = 1 := by
  unfold playNextC
  split
  · rfl
  · split <;> simp [List.count_cons]

theorem playNextC_movies (st : CtrlState) :
    ((playNextC st).1).playlist.movies = st.playlist.movies := by
  unfold playNextC
  split
  · rfl
  · cases h : st.playlist.next_movie st.isRandom st.entropy with
    | none => simp
    | some mp => simpa using next_movie_movies h

/-! ## Claim theorems -/

/-- C7: while the current Playlist is empty, both play-next and play-previous
return immediately: the Playlist is not asked for a movie, no Player call is
issued, and the controller state is unchanged. -/
theorem claim_C7_empty_noop (st : CtrlState) (h : st.playlist.length = 0) :
    playNextC st = (st, [Eff.playNextInvoked])
  ∧ playPrevC st = (st, [Eff.playPrevInvoked]) := by
  constructor
  · unfold playNextC; rw [if_pos h]
  · unfold playPrevC; rw [if_pos h]

theorem claim_C7_witness :
    stEmpty.playlist.length = 0
  ∧ playNextC stEmpty = (stEmpty, [Eff.playNextInvoked])
  ∧ playPrevC stEmpty = (stEmpty, [Eff.playPrevInvoked]) :=
  ⟨rfl, (claim_C7_empty_noop stEmpty rfl).1, (claim_C7_empty_noop stEmpty rfl).2⟩

/-- C4 counterexample: the claim asserts the 's' key sets `playbackStopped` to
true; in the code (line 355-357) handling the 's' key only stops the Player,
and the flag stays false. -/
theorem claim_C4_counterexample :
    stScan.playbackStopped = false
  ∧ (handleKeyEvent stScan fsScan Key.s).1.playbackStopped = false
  ∧ (handleKeyEvent stScan fsScan Key.s).2 = [Eff.playerStop 0] :=
  ⟨rfl, rfl, rfl⟩

/-- C4 amended: for every 's' key press the controller instructs the Player to
stop; the `playbackStopped` flag and all other controller state are left
unchanged, so the main loop does not switch to the stopped branch. -/
theorem claim_C4_stop_key (st : CtrlState) (fs : FS) :
    handleKeyEvent st fs Key.s = (st, [Eff.playerStop 0]) := rfl

/-- C2: evaluation of the code at the failing input.  The current movie of
`stScan` carries repeat count 3, yet a single finished()-triggered advancement
(one `_play_next`) plays it once and the next advancement already plays the
next distinct movie: the controller holds no replay-count state. -/
theorem claim_C2_code_behavior :
    ((stScan.playlist.movies.get? 0).map Movie.repeats = some 3)
  ∧ ((playNextC stScan).2
      = [Eff.playNextInvoked, Eff.queryNext, Eff.playerPlay "/m/a_repeat_3x.mp4" 0])
  ∧ ((playNextC (playNextC stScan).1).2
      = [Eff.playNextInvoked, Eff.queryNext, Eff.playerPlay "/m/b.mp4" 0]) := by
  refine ⟨by decide, by decide, by decide⟩

/-- C6: once the running flag is false, the main loop exits without executing
its body again, and the exit path stops the Player and releases GPIO exactly
when a pin map was configured; the escape key and the termination signal both
clear the flag. -/
theorem claim_C6_quit_exit (fuel : Nat) (st : CtrlState) (ins : List StepInput)
    (h : st.running = false) :
    runFrom fuel st ins = (st, runExitEffs st)
  ∧ Eff.playerStop 0 ∈ runExitEffs st
  ∧ (st.pinMap.isSome = true → Eff.gpioCleanup ∈ runExitEffs st)
  ∧ (∀ st2 fs, (handleKeyEvent st2 fs Key.escape).1.running = false)
  ∧ (∀ st2, (handleExitSignal st2).running = false) := by
  have hloop : runLoop fuel st ins = (st, []) := by
    cases fuel with
    | zero => rfl
    | succ n =>
      cases ins with
      | nil => rfl
      | cons i ins' => simp [runLoop, h]
  refine ⟨?_, ?_, ?_, fun st2 fs => rfl, fun st2 => rfl⟩
  · simp [runFrom, hloop]
  · simp [runExitEffs]
  · intro hp
    simp [runExitEffs, hp]

theorem claim_C6_witness :
    stHalted.running = false
  ∧ (runFrom 5 stHalted [] = (stHalted, runExitEffs stHalted)
     ∧ Eff.playerStop 0 ∈ runExitEffs stHalted
     ∧ (stHalted.pinMap.isSome = true → Eff.gpioCleanup ∈ runExitEffs stHalted)
     ∧ (∀ st2 fs, (handleKeyEvent st2 fs Key.escape).1.running = false)
     ∧ (∀ st2, (handleExitSignal st2).running = false)) :=
  ⟨rfl, claim_C6_quit_exit 5 stHalted [] rfl⟩

theorem gpio_not_suppressed {st : CtrlState} {playerIsPlaying : Bool}
    (hsup : ¬(st.gpioDisabledWhilePlayback = true ∧ playerIsPlaying = true)) :
    (st.gpioDisabledWhilePlayback && playerIsPlaying) = false := by
  cases hA : st.gpioDisabledWhilePlayback <;> cases hB : playerIsPlaying <;>
    simp_all

theorem handleGpio_keyEquiv (st : CtrlState) (pmap : List (String × PinAction))
    (pin s : String) (playerIsPlaying : Bool)
    (hmap : st.pinMap = some pmap)
    (hb : (st.gpioDisabledWhilePlayback && playerIsPlaying) = false)
    (hact : pmap.lookup pin = some (PinAction.str s))
    (hk : isKeyboardEquiv (PinAction.str s) = true) :
    handleGpio st pin playerIsPlaying = some (st, [Eff.postKey s]) := by
  unfold handleGpio
  rw [hmap, hb]
  simp only [Bool.false_eq_true, if_false, hact, hk, if_true]

theorem handleGpio_jump (st : CtrlState) (pmap : List (String × PinAction))
    (pin : String) (act : PinAction) (playerIsPlaying : Bool)
    (hmap : st.pinMap = some pmap)
    (hb : (st.gpioDisabledWhilePlayback && playerIsPlaying) = false)
    (hact : pmap.lookup pin = some act)
    (hk : isKeyboardEquiv act = false) :
    handleGpio st pin playerIsPlaying =
      some ({ st with playlist := st.playlist.set_next act, playbackStopped := false },
            [Eff.setNextCall act, Eff.playerStop 3]) := by
  unfold handleGpio
  rw [hmap, hb]
  simp only [Bool.false_eq_true, if_false, hact, hk]

/-- C10: for an unsuppressed GPIO trigger, the configured action is treated as
keyboard-equivalent iff it is one of the eight listed names, in which case the
matching key-down event is injected; every other action value is passed to the
Playlist's set_next together with a 3-second-fade Player stop and clearing of
the `playbackStopped` flag. -/
theorem claim_C10_gpio_classification (st : CtrlState)
    (pmap : List (String × PinAction)) (pin : String) (act : PinAction)
    (playerIsPlaying : Bool)
    (hmap : st.pinMap = some pmap)
    (hsup : ¬(st.gpioDisabledWhilePlayback = true ∧ playerIsPlaying = true))
    (hact : pmap.lookup pin = some act) :
    (isKeyboardEquiv act = true ↔
      act = PinAction.str "K_ESCAPE" ∨ act = PinAction.str "K_k"
      ∨ act = PinAction.str "K_s" ∨ act = PinAction.str "K_SPACE"
      ∨ act = PinAction.str "K_p" ∨ act = PinAction.str "K_b"
      ∨ act = PinAction.str "K_o" ∨ act = PinAction.str "K_i")
  ∧ (∀ s, act = PinAction.str s → isKeyboardEquiv act = true →
      handleGpio st pin playerIsPlaying = some (st, [Eff.postKey s]))
  ∧ (isKeyboardEquiv act = false →
      handleGpio st pin playerIsPlaying =
        some ({ st with playlist := st.playlist.set_next act, playbackStopped := false },
              [Eff.setNextCall act, Eff.playerStop 3])) := by
  have hb := gpio_not_suppressed hsup
  refine ⟨?_, ?_, ?_⟩
  · cases act with
    | num i => simp [isKeyboardEquiv]
    | str s => simp [isKeyboardEquiv, keyboardEquivActions, List.contains]
  · intro s hs hk
    subst hs
    exact handleGpio_keyEquiv st pmap pin s playerIsPlaying hmap hb hact hk
  · intro hk
    exact handleGpio_jump st pmap pin act playerIsPlaying hmap hb hact hk

def pmapW : List (String × PinAction) :=
  [("11", PinAction.str "K_RIGHT"), ("13", PinAction.num 0)]

def stGpio : CtrlState := { stScan with pinMap := some pmapW }

theorem claim_C10_witness :
    stGpio.pinMap = some pmapW
  ∧ ¬(stGpio.gpioDisabledWhilePlayback = true ∧ false = true)
  ∧ pmapW.lookup "11" = some (PinAction.str "K_RIGHT")
  ∧ (isKeyboardEquiv (PinAction.str "K_RIGHT") = false →
      handleGpio stGpio "11" false =
        some ({ stGpio with
                  playlist := stGpio.playlist.set_next (PinAction.str "K_RIGHT"),
                  playbackStopped := false },
              [Eff.setNextCall (PinAction.str "K_RIGHT"), Eff.playerStop 3])) :=
  ⟨rfl, by simp, by decide,
   (claim_C10_gpio_classification stGpio pmapW "11" (PinAction.str "K_RIGHT") false
      rfl (by simp) (by decide)).2.2⟩

/-- C5: an unsuppressed GPIO trigger whose configured action is an in-range
playlist index forwards the index to the Playlist via set_next, stops the
Player with a 3-second fade, and clears `playbackStopped`; the following main
loop iteration (the player reporting the faded-out playback finished) then
issues the play-next that commits the index, so playback restarts at the new
index. -/
theorem claim_C5_gpio_set_index (st : CtrlState)
    (pmap : List (String × PinAction)) (pin : String) (i : Int) (mv : Movie)
    (playerIsPlaying : Bool) (inp : StepInput)
    (hmap : st.pinMap = some pmap)
    (hsup : ¬(st.gpioDisabledWhilePlayback = true ∧ playerIsPlaying = true))
    (hact : pmap.lookup pin = some (PinAction.num i))
    (hlo : 0 ≤ i) (hhi : i < (st.playlist.movies.length : Int))
    (hmv : st.playlist.movies.get? i.toNat = some mv)
    (hfin : inp.finished = true) :
    handleGpio st pin playerIsPlaying =
      some ({ st with playlist := st.playlist.set_next (PinAction.num i),
                      playbackStopped := false },
            [Eff.setNextCall (PinAction.num i), Eff.playerStop 3])
  ∧ (st.playlist.set_next (PinAction.num i)).pending = some i.toNat
  ∧ Eff.playerPlay mv.path st.vol.soundVol ∈
      (loopBody { st with playlist := st.playlist.set_next (PinAction.num i),
                          playbackStopped := false } inp).2 := by
  have hpend : st.playlist.set_next (PinAction.num i)
      = { st.playlist with pending := some i.toNat } := by
    simp only [Playlist.set_next]
    rw [if_pos ⟨hlo, hhi⟩]
  have hgpio := handleGpio_jump st pmap pin (PinAction.num i) playerIsPlaying
      hmap (gpio_not_suppressed hsup) hact rfl
  refine ⟨hgpio, by rw [hpend], ?_⟩
  have hlen : ¬(({ st.playlist with pending := some i.toNat } : Playlist).length = 0) := by
    unfold Playlist.length
    intro h0
    simp only [h0] at hhi
    omega
  set st2 : CtrlState :=
    { st with playlist := st.playlist.set_next (PinAction.num i),
              playbackStopped := false } with hst2
  have hplay : playNextC st2 =
      ({ st2 with playlist :=
           { st.playlist with cursor := (i.toNat : Int), pending := none } },
       [Eff.playNextInvoked, Eff.queryNext, Eff.playerPlay mv.path st.vol.soundVol]) := by
    unfold playNextC
    rw [hst2]
    simp only [hpend]
    rw [if_neg hlen]
    unfold Playlist.next_movie Playlist.nextIdx
    simp only [hmv]
    unfold Playlist.length at hlen
    rw [if_neg hlen]
  unfold loopBody
  have hstop : st2.playbackStopped = false := rfl
  rw [hstop]
  simp only [Bool.false_eq_true, if_false, hfin, if_true, hplay]
  split
  · simp
  · simp

def inpW : StepInput := { finished := true, fs := fsScan }

def mvW : Movie := scanMovie "/m" "a_repeat_3x.mp4"

theorem claim_C5_witness :
    (stGpio.pinMap = some pmapW
     ∧ pmapW.lookup "13" = some (PinAction.num 0)
     ∧ (0 : Int) ≤ 0
     ∧ (0 : Int) < (stGpio.playlist.movies.length : Int)
     ∧ stGpio.playlist.movies.get? (0 : Int).toNat = some mvW
     ∧ inpW.finished = true)
  ∧ (handleGpio stGpio "13" false =
       some ({ stGpio with playlist := stGpio.playlist.set_next (PinAction.num 0),
                           playbackStopped := false },
             [Eff.setNextCall (PinAction.num 0), Eff.playerStop 3])
     ∧ (stGpio.playlist.set_next (PinAction.num 0)).pending = some (0 : Int).toNat
     ∧ Eff.playerPlay mvW.path stGpio.vol.soundVol ∈
         (loopBody { stGpio with playlist := stGpio.playlist.set_next (PinAction.num 0),
                                 playbackStopped := false } inpW).2) :=
  ⟨⟨rfl, by decide, by decide, by decide, by decide, rfl⟩,
   claim_C5_gpio_set_index stGpio pmapW "13" 0 mvW false inpW rfl (by simp) (by decide)
     (by decide) (by decide) (by decide) rfl⟩

/-- C1: in an iteration of the main loop taken while playback is not stopped,
the playlist is rebuilt once and compared to the current one: the rebuild
contributes exactly one play-next invocation if and only if the rebuilt
playlist is not equal to the current one (the only other play-next of the
iteration being the finished()-triggered one), the current playlist object is
kept when the comparison says equal, and the rebuilt one is installed when it
says unequal. -/
theorem claim_C1_rebuild_restart (st : CtrlState) (inp : StepInput)
    (h : st.playbackStopped = false) :
    ((loopBody st inp).2.count Eff.playNextInvoked
       = (if inp.finished then 1 else 0)
         + (if plEq (rebuiltPl st inp) (afterFinished st inp).playlist then 0 else 1))
  ∧ (plEq (rebuiltPl st inp) (afterFinished st inp).playlist = true →
       (loopBody st inp).1.playlist = (afterFinished st inp).playlist)
  ∧ (plEq (rebuiltPl st inp) (afterFinished st inp).playlist = false →
       (loopBody st inp).1.playlist.movies = (rebuiltPl st inp).movies) := by
  simp only [loopBody, rebuiltPl, afterFinished]
  by_cases hf : inp.finished = true
  · by_cases hpq : plEq (buildPlaylist (playNextC st).1.cfg inp.fs (playNextC st).1.vol).1
        (playNextC st).1.playlist = true
    · simp [hf, h, hpq, playNextC_count]
    · simp only [Bool.not_eq_true] at hpq
      simp [hf, h, hpq, playNextC_count, playNextC_movies, List.count_append]
  · simp only [Bool.not_eq_true] at hf
    by_cases hpq : plEq (buildPlaylist st.cfg inp.fs st.vol).1 st.playlist = true
    · simp [hf, h, hpq]
    · simp only [Bool.not_eq_true] at hpq
      simp [hf, h, hpq, playNextC_count, playNextC_movies]

def inpEq : StepInput := { finished := false, fs := fsScan }

theorem claim_C1_witness :
    stScan.playbackStopped = false
  ∧ (((loopBody stScan inpEq).2.count Eff.playNextInvoked
       = (if inpEq.finished then 1 else 0)
         + (if plEq (rebuiltPl stScan inpEq) (afterFinished stScan inpEq).playlist
            then 0 else 1))
     ∧ (plEq (rebuiltPl stScan inpEq) (afterFinished stScan inpEq).playlist = true →
          (loopBody stScan inpEq).1.playlist = (afterFinished stScan inpEq).playlist)
     ∧ (plEq (rebuiltPl stScan inpEq) (afterFinished stScan inpEq).playlist = false →
          (loopBody stScan inpEq).1.playlist.movies = (rebuiltPl stScan inpEq).movies)) :=
  ⟨rfl, claim_C1_rebuild_restart stScan inpEq rfl⟩

theorem buildPlaylist_spec (cfg : Cfg) (fs : FS) (vol : VolState) (pp : String)
    (hc : cfg.playlistPath = some pp) (hne : pp ≠ "") :
    buildPlaylist cfg fs vol =
      (match specResolvePlaylistPath cfg fs pp with
       | some q =>
         if m3uExtOk q then (m3uPlaylist fs q, vol)
         else buildPlaylistFromAllFiles cfg fs vol
       | none => buildPlaylistFromAllFiles cfg fs vol) := by
  simp only [buildPlaylist, specResolvePlaylistPath, hc, hne, if_false]
  by_cases habs : isAbsPath pp = true
  · simp only [habs, if_true]
    by_cases hfile : fs.isFile pp = true
    · simp only [hfile, if_true]
    · simp only [Bool.not_eq_true] at hfile
      simp only [hfile, Bool.false_eq_true, if_false]
  · simp only [Bool.not_eq_true] at habs
    simp only [habs, Bool.false_eq_true, if_false]
    cases hrp : cfg.readerPaths with
    | nil =>
      simp only [firstResolve, List.findSome?]
      unfold buildPlaylistFromAllFiles
      rw [hrp]
      rfl
    | cons p ps => rfl

/-- C3: with a nonempty playlist-file path configured, an absolute path is used
directly and a relative one is resolved against each FileReader search path in
order (the content of `specResolvePlaylistPath`); when resolution succeeds on
a recognized extension the playlist file is parsed, and in every failure case
(unresolvable path or unrecognized extension) the result is exactly that of
the full directory scan. -/
theorem claim_C3_playlist_file_fallback (cfg : Cfg) (fs : FS) (vol : VolState)
    (pp : String) (hc : cfg.playlistPath = some pp) (hne : pp ≠ "") :
    (∀ q, specResolvePlaylistPath cfg fs pp = some q →
       buildPlaylist cfg fs vol =
         (if m3uExtOk q then (m3uPlaylist fs q, vol)
          else buildPlaylistFromAllFiles cfg fs vol))
  ∧ (specResolvePlaylistPath cfg fs pp = none →
       buildPlaylist cfg fs vol = buildPlaylistFromAllFiles cfg fs vol) := by
  have hspec := buildPlaylist_spec cfg fs vol pp hc hne
  constructor
  · intro q hq
    rw [hspec]
    simp only [hq]
  · intro hq
    rw [hspec]
    simp only [hq]

def cfgM3u : Cfg :=
  { playlistPath := some "pl.m3u", readerPaths := ["/m"], extensions := ["mp4"],
    alsaHwVolFile := "", soundVolFile := "" }

def fsM3u : FS :=
  { files := ["/m/pl.m3u"], dirs := [("/m", ["b.mp4"])],
    lines := [], m3u := [("/m/pl.m3u", [Movie.make "/m/b.mp4" "b" (RepeatArg.natArg 1)])] }

theorem claim_C3_witness :
    (cfgM3u.playlistPath = some "pl.m3u" ∧ "pl.m3u" ≠ ""
     ∧ specResolvePlaylistPath cfgM3u fsM3u "pl.m3u" = some "/m/pl.m3u")
  ∧ buildPlaylist cfgM3u fsM3u volZero =
      (if m3uExtOk "/m/pl.m3u" then (m3uPlaylist fsM3u "/m/pl.m3u", volZero)
       else buildPlaylistFromAllFiles cfgM3u fsM3u volZero) :=
  ⟨⟨rfl, by decide, by decide⟩,
   (claim_C3_playlist_file_fallback cfgM3u fsM3u volZero "pl.m3u" rfl (by decide)).1
     "/m/pl.m3u" (by decide)⟩

theorem scanFold_vol (cfg : Cfg) (fs : FS) :
    ∀ (ps : List String) (ms : List Movie) (v : VolState),
      (ps.foldl (scanStep cfg fs) (ms, v)).2
        = { alsaHwVol := specHwVolAfterScan cfg fs ps v.alsaHwVol,
            soundVol := specSoundVolAfterScan cfg fs ps v.soundVol } := by
  intro ps
  induction ps with
  | nil =>
    intro ms v
    simp [specHwVolAfterScan, specSoundVolAfterScan, scannedPaths, lastWins]
  | cons p ps ih =>
    intro ms v
    simp only [List.foldl_cons]
    by_cases hp : (fs.pathExists p && fs.isDir p) = true
    · have hstep : scanStep cfg fs (ms, v) p
          = (ms ++ scanDirMovies cfg.extensions p (fs.listdir p),
             { alsaHwVol :=
                 match hwCand cfg fs p with
                 | some s => some s
                 | none => v.alsaHwVol,
               soundVol :=
                 match soundCand cfg fs p with
                 | some w => w
                 | none => v.soundVol }) := by
        unfold scanStep
        rw [if_neg]
        simp only [Bool.not_or] at hp ⊢
        simp only [Bool.and_eq_true] at hp
        simp [hp.1, hp.2]
      rw [hstep, ih]
      have hscan : scannedPaths fs (p :: ps) = p :: scannedPaths fs ps := by
        simp [scannedPaths, List.filter_cons, hp]
      cases hhw : hwCand cfg fs p with
      | none =>
        cases hsnd : soundCand cfg fs p with
        | none =>
          simp [specHwVolAfterScan, specSoundVolAfterScan, hscan, hhw, hsnd]
        | some w =>
          simp [specHwVolAfterScan, specSoundVolAfterScan, hscan, hhw, hsnd, lastWins]
      | some s =>
        cases hsnd : soundCand cfg fs p with
        | none =>
          simp [specHwVolAfterScan, specSoundVolAfterScan, hscan, hhw, hsnd, lastWins]
        | some w =>
          simp [specHwVolAfterScan, specSoundVolAfterScan, hscan, hhw, hsnd, lastWins]
    · have hstep : scanStep cfg fs (ms, v) p = (ms, v) := by
        unfold scanStep
        rw [if_pos]
        simp only [Bool.and_eq_true, not_and] at hp
        cases he : fs.pathExists p with
        | false => simp
        | true => simp [hp he]
      have hscan : scannedPaths fs (p :: ps) = scannedPaths fs ps := by
        simp [scannedPaths, List.filter_cons, hp]
      rw [hstep, ih]
      simp [specHwVolAfterScan, specSoundVolAfterScan, hscan]

/-- C8 amended: after the full scan the hardware volume holds the sidecar value
of the last search path that has the file, stored without any validation (the
prior value kept only when no path has it), and the software volume holds the
last numeric sidecar value found (malformed and missing values skipped, the
prior value kept when none is found) — last wins, not first. -/
theorem claim_C8_amended_volumes (cfg : Cfg) (fs : FS) (vol : VolState) :
    ((buildPlaylistFromAllFiles cfg fs vol).2.alsaHwVol
       = specHwVolAfterScan cfg fs cfg.readerPaths vol.alsaHwVol)
  ∧ ((buildPlaylistFromAllFiles cfg fs vol).2.soundVol
       = specSoundVolAfterScan cfg fs cfg.readerPaths vol.soundVol) := by
  unfold buildPlaylistFromAllFiles
  rw [scanFold_vol]
  exact ⟨rfl, rfl⟩

def cfgVols : Cfg :=
  { playlistPath := none, readerPaths := ["/a", "/b"], extensions := ["mp4"],
    alsaHwVolFile := "hwvol", soundVolFile := "sndvol" }

def fsVols : FS :=
  { files := ["/a/hwvol", "/a/sndvol", "/b/sndvol"],
    dirs := [("/a", []), ("/b", [])],
    lines := [("/a/hwvol", "abc"), ("/a/sndvol", "10"), ("/b/sndvol", "20")],
    m3u := [] }

/-- C8 counterexample: with search paths /a then /b, sound sidecar values 10
then 20, the final software volume is 20 — the last value wins, not the first
as the claim states; and the malformed hardware sidecar value "abc" is stored
rather than ignored with the default retained. -/
theorem claim_C8_counterexample :
    (buildPlaylistFromAllFiles cfgVols fsVols volZero).2.soundVol = 20
  ∧ ((20 : Int) = 10 → False)
  ∧ (buildPlaylistFromAllFiles cfgVols fsVols volZero).2.alsaHwVol = some "abc"
  ∧ pyIsNumber "abc" = false
  ∧ volZero.alsaHwVol = none :=
  ⟨by decide, by decide, by decide, by decide, rfl⟩

theorem mem_insertByPath {a m : Movie} {l : List Movie}
    (h : a ∈ insertByPath m l) : a = m ∨ a ∈ l := by
  induction l with
  | nil => simpa [insertByPath] using h
  | cons b r ih =>
    unfold insertByPath at h
    by_cases hc : strLt m.path b.path = true
    · rw [if_pos hc] at h
      exact List.mem_cons.mp h
    · rw [if_neg hc] at h
      rcases List.mem_cons.mp h with h1 | h2
      · exact Or.inr (List.mem_cons.mpr (Or.inl h1))
      · rcases ih h2 with h3 | h4
        · exact Or.inl h3
        · exact Or.inr (List.mem_cons.mpr (Or.inr h4))

theorem mem_sortByPath {a : Movie} {l : List Movie}
    (h : a ∈ sortByPath l) : a ∈ l := by
  induction l with
  | nil => simp [sortByPath] at h
  | cons b r ih =>
    unfold sortByPath at h
    rcases mem_insertByPath h with h1 | h2
    · exact h1 ▸ List.mem_cons_self b r
    · exact List.mem_cons.mpr (Or.inr (ih h2))

theorem make_repeats_pos (path title : String) (r : RepeatArg) :
    1 ≤ (Movie.make path title r).repeats := by
  unfold Movie.make
  cases r <;> exact le_max_left 1 _

theorem scanFold_movies (cfg : Cfg) (fs : FS) :
    ∀ (ps : List String) (ms : List Movie) (v : VolState) (m : Movie),
      m ∈ (ps.foldl (scanStep cfg fs) (ms, v)).1 →
      m ∈ ms ∨ ∃ p x, m = scanMovie p x := by
  intro ps
  induction ps with
  | nil =>
    intro ms v m hm
    exact Or.inl hm
  | cons p ps ih =>
    intro ms v m hm
    simp only [List.foldl_cons] at hm
    rcases ih (scanStep cfg fs (ms, v) p).1 (scanStep cfg fs (ms, v) p).2 m hm with h1 | h2
    · by_cases hp : (!fs.pathExists p || !fs.isDir p) = true
      · rw [show (scanStep cfg fs (ms, v) p).1 = ms from by
            unfold scanStep; rw [if_pos hp]] at h1
        exact Or.inl h1
      · rw [show (scanStep cfg fs (ms, v) p).1
              = ms ++ scanDirMovies cfg.extensions p (fs.listdir p) from by
            unfold scanStep; rw [if_neg hp]] at h1
        rcases List.mem_append.mp h1 with h3 | h4
        · exact Or.inl h3
        · have h5 : ∃ a, (a ∈ fs.listdir p ∧ hiddenEntry a = false
              ∧ extMatches cfg.extensions a = true) ∧ scanMovie p a = m := by
            simpa [scanDirMovies] using h4
          rcases h5 with ⟨x, _, hxm⟩
          exact Or.inr ⟨p, x, hxm.symm⟩
    · exact Or.inr h2

/-- C9: the repeat count of the Movie built for a scanned directory entry is
exactly what the claim demands — the number of the case-insensitive repeat
marker when present, 1 otherwise, anything below 1 raised to 1 — and every
Movie in a playlist built by the full scan has a positive repeat count. -/
theorem claim_C9_repeat_counts (p x : String) (cfg : Cfg) (fs : FS)
    (vol : VolState) (m : Movie) :
    ((scanMovie p x).repeats = specRepeatCount x ∧ 1 ≤ (scanMovie p x).repeats)
  ∧ (m ∈ (buildPlaylistFromAllFiles cfg fs vol).1.movies → 1 ≤ m.repeats) := by
  refine ⟨⟨?_, make_repeats_pos _ _ _⟩, ?_⟩
  · unfold scanMovie Movie.make repeatArgOf specRepeatCount
    cases h : findRepeatGroup x.toList with
    | none => rfl
    | some g => rfl
  · intro hm
    unfold buildPlaylistFromAllFiles Playlist.build at hm
    simp only at hm
    have h2 := mem_sortByPath hm
    rcases scanFold_movies cfg fs cfg.readerPaths [] vol m h2 with h3 | ⟨q, y, hqy⟩
    · simp at h3
    · rw [hqy]
      exact make_repeats_pos _ _ _

theorem claim_C9_witness :
    ((scanMovie "/m" "a_repeat_3x.mp4").repeats = specRepeatCount "a_repeat_3x.mp4"
      ∧ 1 ≤ (scanMovie "/m" "a_repeat_3x.mp4").repeats)
  ∧ (mvW ∈ (buildPlaylistFromAllFiles cfgScan fsScan volZero).1.movies
     ∧ 1 ≤ mvW.repeats) :=
  ⟨(claim_C9_repeat_counts "/m" "a_repeat_3x.mp4" cfgScan fsScan volZero mvW).1,
   by decide,
   (claim_C9_repeat_counts "/m" "a_repeat_3x.mp4" cfgScan fsScan volZero mvW).2 (by decide)⟩

end VideoLooperSpec
